import Mathlib

/-!
Verification of the Nomad Consul service-registration reconciler
(`command/agent/consul/client.go` and `command/agent/consul/script.go`)
against its natural-language specification.

The Go code is shallowly embedded: Go maps become association lists over
`String` keys (`SMap`), `time.Duration` values become `Nat` nanoseconds,
channels/goroutine wake-ups become explicit event inputs, and pointer
mutation (e.g. `createCheckReg` writing to its input check) becomes
explicit state passing.
-/

set_option autoImplicit false

namespace NomadConsul

/-! ## Constants (from the `const` block of client.go and script.go) -/

/-- One second in nanoseconds: `time.Second`. -/
def second : Nat := 1000000000

/-- `nomadServicePrefix = "_nomad"`: the prefix that scopes all Nomad
registered services. -/
def nomadServicePrefix : String := "_nomad"

/-- `defaultRetryInterval = time.Second`. -/
def defaultRetryInterval : Nat := second

/-- `defaultMaxRetryInterval = 30 * time.Second`. -/
def defaultMaxRetryInterval : Nat := 30 * second

/-- `ttlCheckBuffer = 31 * time.Second`. -/
def ttlCheckBuffer : Nat := 31 * second

/-- `structs.ServiceCheckHTTP` (the Go constant is the string "http"). -/
def serviceCheckHTTP : String := "http"

/-- `structs.ServiceCheckTCP`. -/
def serviceCheckTCP : String := "tcp"

/-- `structs.ServiceCheckScript`. -/
def serviceCheckScript : String := "script"

/-- `api.HealthPassing`. -/
def healthPassing : String := "passing"

/-- `api.HealthWarning`. -/
def healthWarning : String := "warning"

/-- `api.HealthCritical`. -/
def healthCritical : String := "critical"

/-- `isNomadService` from client.go: `strings.HasPrefix(id, nomadServicePrefix)`.
The prefix test is taken on the strings' character lists (the native
`String.isPrefixOf` is semantically identical but does not reduce in the
kernel). -/
def isNomadService (id : String) : Bool :=
  nomadServicePrefix.toList.isPrefixOf id.toList

/-! ## `SMap`: Go `map[string]V` as an association list

Go map iteration order is unspecified; the embedding fixes the list order.
All properties proved below are insensitive to that order. `insert` models
Go map assignment (replace if present, else add); `erase` models `delete`. -/

/-- First-match lookup in an association list. -/
def findL {α : Type} : List (String × α) → String → Option α
  | [], _ => none
  | (k', v) :: rest, k => if k' = k then some v else findL rest k

/-- Go map assignment on an association list: replace if present, else append. -/
def insertL {α : Type} : List (String × α) → String → α → List (String × α)
  | [], k, v => [(k, v)]
  | (k', v') :: rest, k, v =>
    if k' = k then (k, v) :: rest else (k', v') :: insertL rest k v

/-- Go `delete` on an association list: removes every entry with the key. -/
def eraseL {α : Type} : List (String × α) → String → List (String × α)
  | [], _ => []
  | (k', v') :: rest, k =>
    if k' = k then eraseL rest k else (k', v') :: eraseL rest k

/-- A Go `map[string]V`, embedded as an association list. -/
structure SMap (α : Type) where
  entries : List (String × α)
deriving DecidableEq

namespace SMap

variable {α : Type}

/-- The empty map. -/
def empty : SMap α := ⟨[]⟩

/-- Map lookup: `v, ok := m[k]`. -/
def find? (m : SMap α) (k : String) : Option α :=
  findL m.entries k

/-- Key membership: `_, ok := m[k]`. -/
def contains (m : SMap α) (k : String) : Bool :=
  (m.find? k).isSome

/-- Go map assignment `m[k] = v`. -/
def insert (m : SMap α) (k : String) (v : α) : SMap α :=
  ⟨insertL m.entries k v⟩

/-- Go `delete(m, k)`. -/
def erase (m : SMap α) (k : String) : SMap α :=
  ⟨eraseL m.entries k⟩

/-- The keys of the map, in list order. -/
def keys (m : SMap α) : List String :=
  m.entries.map Prod.fst

end SMap

/-! ## Data model

`api.AgentServiceRegistration`, `api.AgentCheckRegistration` (with its
embedded `AgentServiceCheck`), and `structs.ServiceCheck`, restricted to
the fields the reconciler reads or writes. Go `time.Duration` values are
`Nat` nanoseconds; where Go stores the rendered string
(`check.Timeout.String()`), the embedding keeps the duration value, since
`Duration.String()` is injective. Go's empty-string-as-unset `HTTP`/`TCP`/
`TTL` fields become `Option`. -/

/-- `api.AgentServiceRegistration`. -/
structure AgentServiceRegistration where
  ID : String
  Name : String
  Tags : List String
  Address : String
  Port : Int
deriving DecidableEq

/-- `api.AgentCheckRegistration` together with its embedded
`AgentServiceCheck` fields used by `createCheckReg`. -/
structure AgentCheckRegistration where
  ID : String
  Name : String
  ServiceID : String
  Status : String
  Timeout : Nat
  Interval : Nat
  HTTP : Option String
  TCP : Option String
  TTL : Option Nat
deriving DecidableEq

/-- `structs.ServiceCheck`, restricted to the fields this package reads. -/
structure ServiceCheck where
  Name : String
  «Type» : String
  Command : String
  Args : List String
  Path : String
  Protocol : String
  PortLabel : String
  Interval : Nat
  Timeout : Nat
  InitialStatus : String
deriving DecidableEq

/-- `scriptCheck` from script.go, restricted to its data fields; the
executor, heartbeater and logger interface references are external
collaborators and are passed separately where needed. -/
structure scriptCheck where
  id : String
  check : ServiceCheck
deriving DecidableEq

/-- `scriptHandle` from script.go. The Go handle holds a `cancel` closure
and a `done` channel; the embedding records whether `cancel` has been
invoked. -/
structure scriptHandle where
  cancelled : Bool
deriving DecidableEq

/-- `operations` from client.go: one batch of mutations submitted to the
sync loop via commit. -/
structure operations where
  regServices : List AgentServiceRegistration
  regChecks : List AgentCheckRegistration
  scripts : List scriptCheck
  deregServices : List String
  deregChecks : List String
deriving DecidableEq

/-- The desired-state store owned by the sync loop: the `services`,
`checks`, `scripts` and `runningScripts` maps of `ServiceClient`. -/
structure ServiceClientState where
  services : SMap AgentServiceRegistration
  checks : SMap AgentCheckRegistration
  scripts : SMap scriptCheck
  runningScripts : SMap scriptHandle
deriving DecidableEq

/-! ## Check translation (`createCheckReg`) -/

/-- `net.JoinHostPort(host, strconv.Itoa(port))`. -/
def joinHostPort (host : String) (port : Int) : String :=
  host ++ ":" ++ toString port

/-- An ASCII hexadecimal digit, as `net/url`'s `ishex`. -/
def isHexDigitChar (c : Char) : Bool :=
  ('0' ≤ c && c ≤ '9') || ('a' ≤ c && c ≤ 'f') || ('A' ≤ c && c ≤ 'F')

/-- Every `%` in the character list is followed by two hex digits
(`net/url`'s percent-escape validation). -/
def validURLEscapes : List Char → Bool
  | [] => true
  | '%' :: a :: b :: rest => isHexDigitChar a && isHexDigitChar b && validURLEscapes rest
  | '%' :: _ => false
  | _ :: rest => validURLEscapes rest

/-- The string contains an ASCII control character (`net/url` rejects
these in a URL). -/
def hasCtlChar (s : String) : Bool :=
  s.toList.any (fun ch => ch.toNat < 0x20 || ch.toNat == 0x7f)

/-- Model of the external `url.Parse(check.Path)` applied to the declared
path as a URI reference: it fails on control characters and on malformed
percent-escapes (the parser's rejection conditions) and otherwise yields
the relative reference for `ResolveReference`. `net/url` is an external
collaborator; what matters to this package is that the parse is fallible
and `createCheckReg` propagates its error. -/
def urlParse (path : String) : Except String String :=
  if hasCtlChar path then .error "net/url: invalid control character in URL"
  else if !validURLEscapes path.toList then .error "invalid URL escape"
  else .ok path

/-- Abstraction of the HTTP branch's URL construction: `url.URL{Scheme,
Host}` resolved against the parsed relative reference via
`ResolveReference`, then rendered with `String()`. No claim inspects the
URL text, only that the HTTP field is set. -/
def resolveHTTPURL (scheme host : String) (port : Int) (path : String) : String :=
  scheme ++ "://" ++ joinHostPort host port ++ path

/-- `createCheckReg` from client.go. The Go function receives
`*structs.ServiceCheck` and its HTTP branch assigns `check.Protocol`
through that pointer; the embedding returns the (possibly updated) check
alongside the produced registration. -/
def createCheckReg (serviceID checkID : String) (check : ServiceCheck)
    (host : String) (port : Int) :
    Except String (ServiceCheck × AgentCheckRegistration) :=
  let chkReg : AgentCheckRegistration :=
    { ID := checkID
      Name := check.Name
      ServiceID := serviceID
      Status := check.InitialStatus
      Timeout := check.Timeout
      Interval := check.Interval
      HTTP := none
      TCP := none
      TTL := none }
  if check.«Type» = serviceCheckHTTP then
    let check := if check.Protocol = "" then { check with Protocol := "http" } else check
    match urlParse check.Path with
    | .error e => .error e
    | .ok relative =>
      .ok (check,
        { chkReg with HTTP := some (resolveHTTPURL check.Protocol host port relative) })
  else if check.«Type» = serviceCheckTCP then
    .ok (check, { chkReg with TCP := some (joinHostPort host port) })
  else if check.«Type» = serviceCheckScript then
    .ok (check, { chkReg with TTL := some (check.Interval + ttlCheckBuffer) })
  else
    .error ("check type " ++ check.«Type» ++ " not valid")

/-! ## Merge (`ServiceClient.merge`) -/

/-- The body of the `deregChecks` loop in `merge`: if a running script
handle exists for the check ID, invoke its cancel and drop the script
definition; then delete the check registration. Mirrors that the Go code
does not delete the `runningScripts` entry itself. -/
def mergeDeregCheck (c : ServiceClientState) (cid : String) : ServiceClientState :=
  let c :=
    match c.runningScripts.find? cid with
    | some script =>
      { c with
        runningScripts := c.runningScripts.insert cid { script with cancelled := true }
        scripts := c.scripts.erase cid }
    | none => c
  { c with checks := c.checks.erase cid }

/-- `merge` from client.go: apply an operation batch to the desired-state
store, loop by loop in source order. -/
def merge (c : ServiceClientState) (ops : operations) : ServiceClientState :=
  let c := ops.regServices.foldl
    (fun c s => { c with services := c.services.insert s.ID s }) c
  let c := ops.regChecks.foldl
    (fun c check => { c with checks := c.checks.insert check.ID check }) c
  let c := ops.scripts.foldl
    (fun c s => { c with scripts := c.scripts.insert s.id s }) c
  let c := ops.deregServices.foldl
    (fun c sid => { c with services := c.services.erase sid }) c
  ops.deregChecks.foldl mergeDeregCheck c

/-! ## Reconcile (`ServiceClient.sync`)

The remote Consul agent's state is a map of registered services and a map
of registered checks (`AgentAPI.Services`/`Checks`); registering stores
the registration under its ID, deregistering deletes it. The embedding
models the error-free execution (every remote call succeeds): on an error
the Go pass aborts, changes nothing further, and a later pass retries. -/

/-- The remote registry as seen and mutated through `AgentAPI`. -/
structure RemoteState where
  services : SMap AgentServiceRegistration
  checks : SMap AgentCheckRegistration
deriving DecidableEq

/-- The service IDs `sync` deregisters in its stale-service sweep: remote
services unknown locally whose ID is Nomad-managed. -/
def staleServiceDeregs (c : ServiceClientState) (r : RemoteState) : List String :=
  r.services.keys.filter (fun id => !(c.services.contains id) && isNomadService id)

/-- The `(checkID, serviceID)` pairs whose checks `sync` deregisters in
its stale-check sweep: remote checks unknown locally whose owning service
ID is Nomad-managed. -/
def staleCheckDeregs (c : ServiceClientState) (r : RemoteState) : List (String × String) :=
  (r.checks.entries.filter
    (fun kv => !(c.checks.contains kv.1) && isNomadService kv.2.ServiceID)).map
    (fun kv => (kv.1, kv.2.ServiceID))

/-- The services the missing-service install phase registers: local
services absent from the remote snapshot. -/
def svcRegsOf (c : ServiceClientState) (r : RemoteState) :
    List (String × AgentServiceRegistration) :=
  c.services.entries.filter (fun kv => !(r.services.contains kv.1))

/-- The checks the missing-check install phase registers: local checks
absent from the remote snapshot. -/
def chkRegsOf (c : ServiceClientState) (r : RemoteState) :
    List (String × AgentCheckRegistration) :=
  c.checks.entries.filter (fun kv => !(r.checks.contains kv.1))

/-- The remote services map after the stale-service sweep (phase 1) and
missing-service install (phase 2). -/
def remoteServicesAfter (c : ServiceClientState) (r : RemoteState) :
    SMap AgentServiceRegistration :=
  (svcRegsOf c r).foldl (fun m kv => m.insert kv.1 kv.2)
    ((staleServiceDeregs c r).foldl SMap.erase r.services)

/-- The remote checks map after the stale-check sweep (phase 3) and
missing-check install (phase 4). -/
def remoteChecksAfter (c : ServiceClientState) (r : RemoteState) :
    SMap AgentCheckRegistration :=
  (chkRegsOf c r).foldl (fun m kv => m.insert kv.1 kv.2)
    (((staleCheckDeregs c r).map Prod.fst).foldl SMap.erase r.checks)

/-- One step of the script-start part of phase 4: if the just-registered
check's ID is in `scripts` and not yet in `runningScripts`, start a
worker and record its (fresh, uncancelled) handle. -/
def startScriptStep (cs : ServiceClientState)
    (kv : String × AgentCheckRegistration) : ServiceClientState :=
  match cs.scripts.find? kv.1 with
  | some _ =>
    if cs.runningScripts.contains kv.1 then cs
    else { cs with runningScripts := cs.runningScripts.insert kv.1 ⟨false⟩ }
  | none => cs

/-- The script-start part of phase 4, over all checks just registered. -/
def startScripts (c : ServiceClientState)
    (regs : List (String × AgentCheckRegistration)) : ServiceClientState :=
  regs.foldl startScriptStep c

/-- One reconcile pass: `sync` from client.go, acting on snapshots of the
remote maps, modelling the error-free execution. Phase order as in the
source: stale-service sweep, missing-service install, stale-check sweep,
missing-check install with script starts. The phases touch disjoint state
(remote services / remote checks / local runningScripts), so the grouping
into the three named components preserves the source's semantics. -/
def syncPass (c : ServiceClientState) (r : RemoteState) :
    ServiceClientState × RemoteState :=
  (startScripts c (chkRegsOf c r),
    { services := remoteServicesAfter c r, checks := remoteChecksAfter c r })

/-- `n` successive reconcile passes. -/
def syncIter (n : Nat) (c : ServiceClientState) (r : RemoteState) :
    ServiceClientState × RemoteState :=
  match n with
  | 0 => (c, r)
  | n + 1 =>
    let p := syncPass c r
    syncIter n p.1 p.2

/-! ## The Run loop's retry backoff -/

/-- The sync-result handling of one `Run` loop iteration (client.go
143-172): given the consecutive-failure count and whether `sync` returned
an error, yields the new count and the backoff duration the retry timer
is armed with (`none` when it is not armed). The ServiceClient is built
by `NewServiceClient` with `retryInterval = defaultRetryInterval` and
`maxRetryInterval = defaultMaxRetryInterval`. -/
def runSyncResult (failures : Nat) (syncErr : Bool) : Nat × Option Nat :=
  if syncErr then
    let failures := failures + 1
    let backoff := defaultRetryInterval * failures
    let backoff := if backoff > defaultMaxRetryInterval then defaultMaxRetryInterval else backoff
    (failures, some backoff)
  else
    (if failures > 0 then 0 else failures, none)

/-- The failure count and armed backoff after `n` consecutive failed
passes starting from a fresh loop (`failures = 0`, timer disabled). -/
def runConsecFailures (n : Nat) : Nat × Option Nat :=
  match n with
  | 0 => (0, none)
  | n + 1 => runSyncResult (runConsecFailures n).1 true

/-! ## Script-check worker (`scriptCheck.run` from script.go)

The worker goroutine becomes a step function over explicit per-iteration
inputs: which channel the wake-up select chose, what the executor
returned, what `execctx.Err()` read afterwards, the heartbeat call's
error, and whether the check-removal context fired. A closed Go channel
stays ready forever, so once the wake came from `shutdownCh`, the
bottom-of-loop select on `shutdownCh` necessarily fires too; the step
encodes that. -/

/-- Which case the top-of-loop select chose: the check-removal context
(`ctx.Done`), the shutdown channel, or the interval timer. -/
inductive Wake
  | ctxDone
  | shutdown
  | timer
deriving DecidableEq

/-- What `execctx.Err()` returns after the executor call. -/
inductive CtxErr
  | ok
  | canceled
  | deadlineExceeded
deriving DecidableEq

/-- The log lines the worker body can emit. -/
inductive LogEvent
  | timeoutWarn
  | updateFailWarn
  | updateFailDebug
  | updateOkInfo
deriving DecidableEq

/-- Inputs of one loop iteration that the environment decides. -/
structure IterInput where
  output : String
  code : Int
  err : Option String
  execErr : CtxErr
  hbErr : Option String
  ctxDoneAfterHb : Bool
  shutdownDuringIter : Bool
deriving DecidableEq

/-- What one loop iteration did. -/
structure StepResult where
  heartbeat : Option (String × String)
  lastCheckOk : Bool
  logs : List LogEvent
  exits : Bool
deriving DecidableEq

/-- The exit-code/error → status translation block (script.go 95-105):
the `(output, state)` pair passed to `UpdateTTL`. -/
def heartbeatOf (output : String) (code : Int) (err : Option String) :
    String × String :=
  let state :=
    if code = 0 then healthPassing
    else if code = 1 then healthWarning
    else healthCritical
  match err with
  | some e => (e, healthCritical)
  | none => (output, state)

/-- One iteration of the worker loop in `scriptCheck.run`, straight down
the Go body: wake-up select, executor call, `execctx.Err()` switch,
status translation, `UpdateTTL`, post-heartbeat cancellation check,
heartbeat-failure log deduplication, bottom-of-loop shutdown check. -/
def scriptCheckIter (wake : Wake) (inp : IterInput) (lastOk : Bool) : StepResult :=
  match wake with
  | .ctxDone => { heartbeat := none, lastCheckOk := lastOk, logs := [], exits := true }
  | w =>
    match inp.execErr with
    | .canceled => { heartbeat := none, lastCheckOk := lastOk, logs := [], exits := true }
    | e =>
      let timedOut := e = .deadlineExceeded
      let lastOk1 := if timedOut then false else lastOk
      let logs1 : List LogEvent := if timedOut then [.timeoutWarn] else []
      let hb := heartbeatOf inp.output inp.code inp.err
      if inp.ctxDoneAfterHb then
        { heartbeat := some hb, lastCheckOk := lastOk1, logs := logs1, exits := true }
      else
        let p :=
          match inp.hbErr with
          | some _ =>
            if lastOk1 then (false, [LogEvent.updateFailWarn])
            else (false, [LogEvent.updateFailDebug])
          | none =>
            if !lastOk1 then (true, [LogEvent.updateOkInfo])
            else (lastOk1, [])
        { heartbeat := some hb
          lastCheckOk := p.1
          logs := logs1 ++ p.2
          exits := w = .shutdown || inp.shutdownDuringIter }

/-- The observable events of the worker: a probe execution, a TTL
heartbeat, and the `done` signal (the deferred `close(done)`). -/
inductive WorkerEv
  | probe
  | heartbeat
  | done
deriving DecidableEq

/-- The events one iteration emits, in order. The executor runs whenever
the wake was not the removal context; the heartbeat is the `UpdateTTL`
call. -/
def iterEvents (wake : Wake) (res : StepResult) : List WorkerEv :=
  (if wake = .ctxDone then [] else [.probe])
    ++ (match res.heartbeat with | some _ => [.heartbeat] | none => [])

/-- The worker's event trace over a list of per-iteration inputs; on exit
the deferred `close(done)` fires last. -/
def scriptCheckRun (ins : List (Wake × IterInput)) (lastOk : Bool) : List WorkerEv :=
  match ins with
  | [] => []
  | (w, inp) :: rest =>
    let res := scriptCheckIter w inp lastOk
    if res.exits then iterEvents w res ++ [.done]
    else iterEvents w res ++ scriptCheckRun rest res.lastCheckOk

/-! ## Caller-facing registration (`commit`, `RegisterTask`, `RemoveTask`) -/

/-- `structs.Service`, restricted to the fields this package reads. -/
structure Service where
  Name : String
  PortLabel : String
  Tags : List String
  Checks : List ServiceCheck

/-- `structs.Task`, restricted to the fields this package reads.
`FindHostAndPortFor` is the workload layer's port-label resolution. -/
structure Task where
  Name : String
  Services : List Service
  FindHostAndPortFor : String → String × Int

/-- `makeAgentServiceID`: `{prefix}-{role}-{name}[-{tag}]*`. -/
def makeAgentServiceID (role : String) (service : Service) : String :=
  String.intercalate "-" ([nomadServicePrefix, role, service.Name] ++ service.Tags)

/-- `makeTaskServiceID`:
`{prefix}-executor-{allocID}-{taskName}-{name}[-{tag}]*`. -/
def makeTaskServiceID (allocID taskName : String) (service : Service) : String :=
  String.intercalate "-"
    ([nomadServicePrefix, "executor", allocID, taskName, service.Name] ++ service.Tags)

/-- Modelled from the spec: `structs.ServiceCheck.Hash`, which lives in
`nomad/structs` outside this repository's sources ("Check ID: a stable
hash of (serviceID, check fields) computed by the workload layer; the
reconciler treats it as opaque"). Embedded as a deterministic pure
function of the service ID and the check's fields. -/
def checkHash (serviceID : String) (check : ServiceCheck) : String :=
  String.intercalate "|"
    [serviceID, check.Name, check.«Type», check.Command, check.Path,
     check.Protocol, check.PortLabel, toString check.Interval, toString check.Timeout]

/-- `createCheckID`: `check.Hash(serviceID)`. -/
def createCheckID (serviceID : String) (check : ServiceCheck) : String :=
  checkHash serviceID check

/-- The environment-facing part of the client for callers: whether
`shutdownCh` is closed and the batches queued on `opCh`. -/
structure ClientIOState where
  shutdown : Bool
  opCh : List operations
deriving DecidableEq

/-- `commit` from client.go: enqueue the batch, or report false if the
shutdown channel is closed. The Go `select` between the two is
nondeterministic when both are ready; the embedding resolves it to the
shutdown branch, which is the only behaviour the shutdown claims
concern. -/
def commit (st : ClientIOState) (ops : operations) : Bool × ClientIOState :=
  if st.shutdown then (false, st)
  else (true, { st with opCh := st.opCh ++ [ops] })

/-- The empty operation batch (`operations{}`). -/
def operations.empty : operations :=
  { regServices := [], regChecks := [], scripts := [], deregServices := [], deregChecks := [] }

/-- `serviceRegs` from client.go: translate one declared service (and its
checks) of a task into registrations appended to the batch. `exec` is
modelled by whether a script executor is available (`hasExec`). -/
def serviceRegs (ops : operations) (allocID : String) (service : Service)
    (hasExec : Bool) (task : Task) : Except String operations := do
  let id := makeTaskServiceID allocID task.Name service
  let hp := task.FindHostAndPortFor service.PortLabel
  let serviceReg : AgentServiceRegistration :=
    { ID := id, Name := service.Name, Tags := service.Tags
      Address := hp.1, Port := hp.2 }
  let ops := { ops with regServices := ops.regServices ++ [serviceReg] }
  service.Checks.foldlM
    (fun ops check => do
      let checkID := createCheckID id check
      let ops ←
        if check.«Type» = serviceCheckScript then
          if !hasExec then
            Except.error "driver doesn't support script checks"
          else
            pure { ops with scripts := ops.scripts ++ [⟨checkID, check⟩] }
        else
          pure ops
      let hp :=
        if check.PortLabel ≠ "" then task.FindHostAndPortFor check.PortLabel
        else (serviceReg.Address, serviceReg.Port)
      match createCheckReg id checkID check hp.1 hp.2 with
      | .error e => Except.error ("failed to add check " ++ check.Name ++ ": " ++ e)
      | .ok pr => pure { ops with regChecks := ops.regChecks ++ [pr.2] })
    ops

/-- The batch `RegisterTask` builds for a task. -/
def registerTaskOps (allocID : String) (task : Task) (hasExec : Bool) :
    Except String operations :=
  task.Services.foldlM
    (fun ops service => serviceRegs ops allocID service hasExec task)
    operations.empty

/-- `RegisterTask` from client.go: translate all services, then `commit`
— whose boolean result the Go code discards — and return nil. -/
def RegisterTask (st : ClientIOState) (allocID : String) (task : Task)
    (hasExec : Bool) : Except String ClientIOState :=
  match registerTaskOps allocID task hasExec with
  | .error e => .error e
  | .ok ops => .ok (commit st ops).2

/-- The batch `RemoveTask` builds for a task. -/
def removeTaskOps (allocID : String) (task : Task) : operations :=
  task.Services.foldl
    (fun ops service =>
      let id := makeTaskServiceID allocID task.Name service
      let ops := { ops with deregServices := ops.deregServices ++ [id] }
      service.Checks.foldl
        (fun ops check =>
          { ops with deregChecks := ops.deregChecks ++ [createCheckID id check] })
        ops)
    operations.empty

/-- `RemoveTask` from client.go: translate all deregistrations, then
`commit`, whose boolean result the Go code discards; no value is
returned. -/
def RemoveTask (st : ClientIOState) (allocID : String) (task : Task) :
    ClientIOState :=
  (commit st (removeTaskOps allocID task)).2

/-! ## The five phases of merge, individually

Named so the merge ordering can be stated as a decomposition. -/

/-- Merge phase 1: upsert service registrations. -/
def applyRegServices (c : ServiceClientState) (l : List AgentServiceRegistration) :
    ServiceClientState :=
  l.foldl (fun c s => { c with services := c.services.insert s.ID s }) c

/-- Merge phase 2: upsert check registrations. -/
def applyRegChecks (c : ServiceClientState) (l : List AgentCheckRegistration) :
    ServiceClientState :=
  l.foldl (fun c check => { c with checks := c.checks.insert check.ID check }) c

/-- Merge phase 3: upsert script definitions. -/
def applyRegScripts (c : ServiceClientState) (l : List scriptCheck) :
    ServiceClientState :=
  l.foldl (fun c s => { c with scripts := c.scripts.insert s.id s }) c

/-- Merge phase 4: delete services by ID. -/
def applyDeregServices (c : ServiceClientState) (l : List String) :
    ServiceClientState :=
  l.foldl (fun c sid => { c with services := c.services.erase sid }) c

/-- Merge phase 5: delete checks by ID (cancelling running scripts). -/
def applyDeregChecks (c : ServiceClientState) (l : List String) :
    ServiceClientState :=
  l.foldl mergeDeregCheck c

/-! ## Concrete sample inputs for witnesses and counterexamples -/

/-- An empty desired-state store. -/
def emptyClientState : ServiceClientState :=
  { services := ⟨[]⟩, checks := ⟨[]⟩, scripts := ⟨[]⟩, runningScripts := ⟨[]⟩ }

/-- A sample declared script check with a 10s interval. -/
def sampleScriptServiceCheck : ServiceCheck :=
  { Name := "mem", «Type» := "script", Command := "/bin/mem", Args := [],
    Path := "", Protocol := "", PortLabel := "", Interval := 10 * second,
    Timeout := 2 * second, InitialStatus := "" }

/-- A sample registered TTL check owned by a Nomad-prefixed service. -/
def sampleCheckReg : AgentCheckRegistration :=
  { ID := "c1", Name := "mem", ServiceID := "_nomad-executor-a1-web-web",
    Status := "", Timeout := 2 * second, Interval := 10 * second,
    HTTP := none, TCP := none, TTL := some (41 * second) }

/-- The failing input for the merge store invariant: a store whose check
"c1" has a live script handle, and a batch deregistering "c1". -/
def c2FailState : ServiceClientState :=
  { services := ⟨[]⟩
    checks := ⟨[("c1", sampleCheckReg)]⟩
    scripts := ⟨[("c1", ⟨"c1", sampleScriptServiceCheck⟩)]⟩
    runningScripts := ⟨[("c1", ⟨false⟩)]⟩ }

/-- A batch that only deregisters check "c1". -/
def c2FailOps : operations :=
  { regServices := [], regChecks := [], scripts := [],
    deregServices := [], deregChecks := ["c1"] }

/-- A sample service registration with ID "x". -/
def c3Reg : AgentServiceRegistration :=
  { ID := "x", Name := "web", Tags := [], Address := "10.0.0.1", Port := 80 }

/-- A self-contradictory batch registering and deregistering the same
service ID "x". -/
def c3Ops : operations :=
  { regServices := [c3Reg], regChecks := [], scripts := [],
    deregServices := ["x"], deregChecks := [] }

/-- A remote registry holding one foreign service `svc-foo` and one stale
Nomad service `_nomad-executor-a1-web-http` (the spec's prefix-gating
scenario). -/
def c1SampleRemote : RemoteState :=
  { services :=
      ⟨[("svc-foo", { ID := "svc-foo", Name := "foo", Tags := [], Address := "h", Port := 1 }),
        ("_nomad-executor-a1-web-http",
          { ID := "_nomad-executor-a1-web-http", Name := "web", Tags := ["http"],
            Address := "h", Port := 2 })]⟩
    checks := ⟨[]⟩ }

/-- A sample task with one check-free service, for the registration
witnesses. -/
def sampleTask : Task :=
  { Name := "web"
    Services := [{ Name := "web", PortLabel := "http", Tags := [], Checks := [] }]
    FindHostAndPortFor := fun _ => ("127.0.0.1", 8080) }

/-- A sample worker-iteration input: the probe timed out and the executor
reported the context error. -/
def sampleTimeoutInput : IterInput :=
  { output := "", code := -1, err := some "context deadline exceeded",
    execErr := .deadlineExceeded, hbErr := none, ctxDoneAfterHb := false,
    shutdownDuringIter := false }

/-- A sample worker-iteration input: a clean passing probe. -/
def samplePassInput : IterInput :=
  { output := "OK", code := 0, err := none, execErr := .ok, hbErr := none,
    ctxDoneAfterHb := false, shutdownDuringIter := false }

/-- A sample declared HTTP check whose Protocol field is unset. -/
def sampleHTTPCheck : ServiceCheck :=
  { Name := "up", «Type» := "http", Command := "", Args := [],
    Path := "/health", Protocol := "", PortLabel := "", Interval := 10 * second,
    Timeout := 2 * second, InitialStatus := "" }


/-! ## Association-list map lemmas -/

namespace SMap

variable {α : Type}

@[simp] theorem find?_empty (k : String) : (empty : SMap α).find? k = none := rfl

theorem findL_insertL_self (l : List (String × α)) (k : String) (v : α) :
    findL (insertL l k v) k = some v := by
  induction l with
  | nil => simp [insertL, findL]
  | cons hd tl ih =>
    obtain ⟨k', v'⟩ := hd
    by_cases h : k' = k <;> simp [insertL, findL, h, ih]

theorem findL_insertL_ne (l : List (String × α)) (k k' : String) (v : α) (h : k ≠ k') :
    findL (insertL l k v) k' = findL l k' := by
  induction l with
  | nil => simp [insertL, findL, h]
  | cons hd tl ih =>
    obtain ⟨k0, v0⟩ := hd
    by_cases h0 : k0 = k
    · subst h0; simp [insertL, findL, h]
    · by_cases h1 : k0 = k' <;> simp [insertL, findL, h0, h1, Ne.symm h, ih]

theorem findL_eraseL_self (l : List (String × α)) (k : String) :
    findL (eraseL l k) k = none := by
  induction l with
  | nil => simp [eraseL, findL]
  | cons hd tl ih =>
    obtain ⟨k', v'⟩ := hd
    by_cases h : k' = k <;> simp [eraseL, findL, h, ih]

theorem findL_eraseL_ne (l : List (String × α)) (k k' : String) (h : k ≠ k') :
    findL (eraseL l k) k' = findL l k' := by
  induction l with
  | nil => simp [eraseL]
  | cons hd tl ih =>
    obtain ⟨k0, v0⟩ := hd
    by_cases h0 : k0 = k
    · subst h0; simp [eraseL, findL, h, ih]
    · by_cases h1 : k0 = k' <;> simp [eraseL, findL, h0, h1, Ne.symm h, ih]

theorem find?_insert (m : SMap α) (k k' : String) (v : α) :
    (m.insert k v).find? k' = if k = k' then some v else m.find? k' := by
  by_cases h : k = k'
  · subst h; simp [find?, insert, findL_insertL_self]
  · simp [find?, insert, h, findL_insertL_ne m.entries k k' v h]

theorem find?_erase (m : SMap α) (k k' : String) :
    (m.erase k).find? k' = if k = k' then none else m.find? k' := by
  by_cases h : k = k'
  · subst h; simp [find?, erase, findL_eraseL_self]
  · simp [find?, erase, h, findL_eraseL_ne m.entries k k' h]

@[simp] theorem find?_insert_self (m : SMap α) (k : String) (v : α) :
    (m.insert k v).find? k = some v := by
  simp [find?_insert]

@[simp] theorem find?_erase_self (m : SMap α) (k : String) :
    (m.erase k).find? k = none := by
  simp [find?_erase]

theorem contains_insert (m : SMap α) (k k' : String) (v : α) :
    (m.insert k v).contains k' = (if k = k' then true else m.contains k') := by
  simp only [contains, find?_insert]
  by_cases h : k = k' <;> simp [h]

theorem contains_erase (m : SMap α) (k k' : String) :
    (m.erase k).contains k' = (if k = k' then false else m.contains k') := by
  simp only [contains, find?_erase]
  by_cases h : k = k' <;> simp [h]

theorem contains_eq_true_iff (m : SMap α) (k : String) :
    m.contains k = true ↔ ∃ v, m.find? k = some v := by
  simp [contains, Option.isSome_iff_exists]

theorem findL_eq_none_iff (l : List (String × α)) (k : String) :
    findL l k = none ↔ k ∉ l.map Prod.fst := by
  induction l with
  | nil => simp [findL]
  | cons hd tl ih =>
    obtain ⟨k', v'⟩ := hd
    by_cases h : k' = k
    · subst h
      simp [findL]
    · simp [findL, h, ih, Ne.symm h]

theorem findL_mem (l : List (String × α)) (k : String) (v : α)
    (h : findL l k = some v) : (k, v) ∈ l := by
  induction l with
  | nil => simp [findL] at h
  | cons hd tl ih =>
    obtain ⟨k', v'⟩ := hd
    by_cases hk : k' = k
    · subst hk
      simp [findL] at h
      subst h
      exact List.mem_cons_self _ _
    · simp only [findL, if_neg hk] at h
      exact List.mem_cons_of_mem _ (ih h)

theorem findL_of_mem_nodup (l : List (String × α)) (k : String) (v : α)
    (hnd : (l.map Prod.fst).Nodup) (h : (k, v) ∈ l) : findL l k = some v := by
  induction l with
  | nil => simp at h
  | cons hd tl ih =>
    obtain ⟨k', v'⟩ := hd
    simp only [List.map_cons, List.nodup_cons] at hnd
    rcases List.mem_cons.mp h with heq | hmem
    · cases heq
      simp [findL]
    · have hk : k' ≠ k := by
        intro hkk
        apply hnd.1
        rw [hkk]
        exact List.mem_map.mpr ⟨(k, v), hmem, rfl⟩
      simp [findL, hk, ih hnd.2 hmem]

theorem find?_eq_none_iff (m : SMap α) (k : String) :
    m.find? k = none ↔ k ∉ m.keys := findL_eq_none_iff m.entries k

theorem contains_eq_false_iff (m : SMap α) (k : String) :
    m.contains k = false ↔ k ∉ m.keys := by
  rw [← find?_eq_none_iff]
  cases h : m.find? k <;> simp [contains, h]

theorem find?_of_mem_nodup (m : SMap α) (k : String) (v : α)
    (hnd : m.keys.Nodup) (h : (k, v) ∈ m.entries) : m.find? k = some v :=
  findL_of_mem_nodup m.entries k v hnd h

theorem find?_mem (m : SMap α) (k : String) (v : α) (h : m.find? k = some v) :
    (k, v) ∈ m.entries := findL_mem m.entries k v h

/-! Lemmas about folding `erase`/`insert` over lists, as the reconcile
phases do. -/

theorem find?_foldl_erase (l : List String) (m : SMap α) (k : String) :
    (l.foldl SMap.erase m).find? k = if k ∈ l then none else m.find? k := by
  induction l generalizing m with
  | nil => simp
  | cons x l ih =>
    simp only [List.foldl_cons, ih, find?_erase]
    by_cases hx : x = k
    · subst hx; simp
    · by_cases hk : k ∈ l <;> simp [hx, hk, Ne.symm hx]

theorem find?_foldl_insert_notmem (kvs : List (String × α)) (m : SMap α) (k : String)
    (h : k ∉ kvs.map Prod.fst) :
    ((kvs.foldl (fun m kv => m.insert kv.1 kv.2) m).find? k) = m.find? k := by
  induction kvs generalizing m with
  | nil => simp
  | cons kv l ih =>
    simp only [List.map_cons, List.mem_cons] at h
    push_neg at h
    simp only [List.foldl_cons, ih _ h.2, find?_insert]
    simp [Ne.symm h.1]

theorem find?_foldl_insert_some (kvs : List (String × α)) (m : SMap α) (k : String) (v : α)
    (h : ((kvs.foldl (fun m kv => m.insert kv.1 kv.2) m).find? k) = some v) :
    (k, v) ∈ kvs ∨ m.find? k = some v := by
  induction kvs generalizing m with
  | nil => exact Or.inr h
  | cons kv l ih =>
    simp only [List.foldl_cons] at h
    rcases ih _ h with hmem | hfind
    · exact Or.inl (List.mem_cons_of_mem _ hmem)
    · rw [find?_insert] at hfind
      by_cases hk : kv.1 = k
      · left
        cases hfind' : (some kv.2 : Option α) with
        | none => simp at hfind'
        | some w => simp [hk] at hfind
                    simp [← hk, ← hfind]
      · right
        simpa [hk] using hfind

/-! Nodup-keys preservation. -/

theorem mem_keys_insertL (l : List (String × α)) (k a : String) (v : α) :
    a ∈ (insertL l k v).map Prod.fst ↔ a ∈ l.map Prod.fst ∨ a = k := by
  induction l with
  | nil => simp [insertL]
  | cons hd tl ih =>
    obtain ⟨k', v'⟩ := hd
    by_cases h : k' = k
    · subst h
      simp [insertL]
      tauto
    · simp [insertL, h, ih]
      tauto

theorem mem_keys_eraseL (l : List (String × α)) (k a : String)
    (h : a ∈ (eraseL l k).map Prod.fst) : a ∈ l.map Prod.fst := by
  induction l with
  | nil => simp [eraseL] at h
  | cons hd tl ih =>
    obtain ⟨k', v'⟩ := hd
    by_cases hk : k' = k
    · simp only [eraseL, if_pos hk] at h
      simp [ih h]
    · simp only [eraseL, if_neg hk, List.map_cons, List.mem_cons] at h
      rcases h with h | h
      · simp [h]
      · simp [ih h]

theorem nodup_keys_insertL (l : List (String × α)) (k : String) (v : α)
    (h : (l.map Prod.fst).Nodup) : ((insertL l k v).map Prod.fst).Nodup := by
  induction l with
  | nil => simp [insertL]
  | cons hd tl ih =>
    obtain ⟨k', v'⟩ := hd
    simp only [List.map_cons, List.nodup_cons] at h
    by_cases hk : k' = k
    · subst hk
      simpa [insertL] using h
    · simp only [insertL, if_neg hk, List.map_cons, List.nodup_cons]
      refine ⟨?_, ih h.2⟩
      rw [mem_keys_insertL]
      rintro (hmem | hrfl)
      · exact h.1 hmem
      · exact hk hrfl

theorem nodup_keys_eraseL (l : List (String × α)) (k : String)
    (h : (l.map Prod.fst).Nodup) : ((eraseL l k).map Prod.fst).Nodup := by
  induction l with
  | nil => simp [eraseL]
  | cons hd tl ih =>
    obtain ⟨k', v'⟩ := hd
    simp only [List.map_cons, List.nodup_cons] at h
    by_cases hk : k' = k
    · simp only [eraseL, if_pos hk]
      exact ih h.2
    · simp only [eraseL, if_neg hk, List.map_cons, List.nodup_cons]
      exact ⟨fun hmem => h.1 (mem_keys_eraseL tl k k' hmem), ih h.2⟩

theorem nodup_keys_insert (m : SMap α) (k : String) (v : α)
    (h : m.keys.Nodup) : (m.insert k v).keys.Nodup :=
  nodup_keys_insertL m.entries k v h

theorem nodup_keys_erase (m : SMap α) (k : String)
    (h : m.keys.Nodup) : (m.erase k).keys.Nodup :=
  nodup_keys_eraseL m.entries k h

theorem nodup_keys_foldl_erase (l : List String) (m : SMap α)
    (h : m.keys.Nodup) : (l.foldl SMap.erase m).keys.Nodup := by
  induction l generalizing m with
  | nil => simpa
  | cons x l ih => exact ih _ (nodup_keys_erase m x h)

theorem nodup_keys_foldl_insert (kvs : List (String × α)) (m : SMap α)
    (h : m.keys.Nodup) :
    ((kvs.foldl (fun m kv => m.insert kv.1 kv.2) m)).keys.Nodup := by
  induction kvs generalizing m with
  | nil => simpa
  | cons kv l ih => exact ih _ (nodup_keys_insert m kv.1 kv.2 h)

end SMap

theorem contains_foldl_erase_of_mem {α : Type} (l : List String) (m : SMap α)
    (k : String) (h : k ∈ l) : (l.foldl SMap.erase m).contains k = false := by
  simp [SMap.contains, SMap.find?_foldl_erase, h]

/-! ## Merge lemmas -/

theorem mergeDeregCheck_services (c : ServiceClientState) (cid : String) :
    (mergeDeregCheck c cid).services = c.services := by
  cases h : c.runningScripts.find? cid <;> simp [mergeDeregCheck, h]

theorem mergeDeregCheck_checks (c : ServiceClientState) (cid : String) :
    (mergeDeregCheck c cid).checks = c.checks.erase cid := by
  cases h : c.runningScripts.find? cid <;> simp [mergeDeregCheck, h]

theorem applyDeregChecks_services (l : List String) (c : ServiceClientState) :
    (applyDeregChecks c l).services = c.services := by
  induction l generalizing c with
  | nil => rfl
  | cons cid l ih =>
    show (applyDeregChecks (mergeDeregCheck c cid) l).services = c.services
    rw [ih, mergeDeregCheck_services]

theorem applyDeregChecks_checks (l : List String) (c : ServiceClientState) :
    (applyDeregChecks c l).checks = l.foldl SMap.erase c.checks := by
  induction l generalizing c with
  | nil => rfl
  | cons cid l ih =>
    show (applyDeregChecks (mergeDeregCheck c cid) l).checks = _
    rw [ih, mergeDeregCheck_checks]
    rfl

theorem applyDeregServices_services (l : List String) (c : ServiceClientState) :
    (applyDeregServices c l).services = l.foldl SMap.erase c.services := by
  induction l generalizing c with
  | nil => rfl
  | cons sid l ih =>
    show (applyDeregServices { c with services := c.services.erase sid } l).services = _
    rw [ih]
    rfl

/-- C2 (evidence of the code bug): merging a batch that deregisters check
"c1", whose script is running, invokes the worker's cancel and drops the
script definition and the check — but leaves the "c1" key in
`runningScripts`, so the claimed invariant `runningScripts ⊆ scripts`
fails after the merge. -/
theorem merge_dereg_stale_runningScript :
    (merge c2FailState c2FailOps).runningScripts.find? "c1" = some ⟨true⟩
    ∧ (merge c2FailState c2FailOps).scripts.contains "c1" = false
    ∧ (merge c2FailState c2FailOps).checks.contains "c1" = false := by
  refine ⟨?_, ?_, ?_⟩ <;> rfl

/-- C3 counterexample: a single batch that registers and deregisters the
same service ID "x". After the merge the ID is absent from the store,
refuting "the add takes effect". -/
theorem merge_readd_same_id_absent :
    (merge emptyClientState c3Ops).services.find? "x" = none := by
  rfl

/-- C3 (amended): merge applies a batch in the order register-services,
register-checks, register-scripts, deregister-services,
deregister-checks; when a single batch both removes and re-adds the same
ID, the REMOVAL takes effect (the ID is absent after the merge), because
deregistrations are applied after registrations. -/
theorem merge_order_dereg_wins (c : ServiceClientState) (ops : operations) :
    merge c ops
      = applyDeregChecks
          (applyDeregServices
            (applyRegScripts
              (applyRegChecks (applyRegServices c ops.regServices) ops.regChecks)
              ops.scripts)
            ops.deregServices)
          ops.deregChecks
    ∧ (∀ sid ∈ ops.deregServices, (merge c ops).services.contains sid = false)
    ∧ (∀ cid ∈ ops.deregChecks, (merge c ops).checks.contains cid = false) := by
  refine ⟨rfl, ?_, ?_⟩
  · intro sid hsid
    show (applyDeregChecks (applyDeregServices _ _) _).services.contains sid = false
    rw [applyDeregChecks_services, applyDeregServices_services]
    exact contains_foldl_erase_of_mem _ _ _ hsid
  · intro cid hcid
    show (applyDeregChecks (applyDeregServices _ _) _).checks.contains cid = false
    rw [applyDeregChecks_checks]
    exact contains_foldl_erase_of_mem _ _ _ hcid

/-- Witness for the amended C3 at a concrete input: in the
self-contradictory batch `c3Ops` the deregistration of "x" wins. -/
theorem merge_order_dereg_wins_witness :
    (merge emptyClientState c3Ops).services.contains "x" = false :=
  (merge_order_dereg_wins emptyClientState c3Ops).2.1 "x" (by simp [c3Ops])

/-! ## Retry backoff -/

theorem runConsecFailures_fst (n : Nat) : (runConsecFailures n).1 = n := by
  induction n with
  | zero => rfl
  | succ n ih => simp [runConsecFailures, runSyncResult, ih]

/-- C4: after the n-th consecutive sync failure (n ≥ 1) the retry timer
is armed with min(retryInterval·n, maxRetryInterval), i.e. the schedule
1s, 2s, …, 30s, 30s, …; and a successful pass resets the failure count
to zero (and arms no timer). -/
theorem run_backoff_linear_capped :
    (∀ n, 1 ≤ n →
      (runConsecFailures n).2
        = some (min (defaultRetryInterval * n) defaultMaxRetryInterval))
    ∧ (∀ failures, runSyncResult failures false = (0, none))
    ∧ ((List.range 35).map (fun i => (runConsecFailures (i + 1)).2)
        = (List.range 30).map (fun i => some ((i + 1) * second))
            ++ List.replicate 5 (some (30 * second))) := by
  refine ⟨?_, ?_, ?_⟩
  · intro n hn
    obtain ⟨m, rfl⟩ : ∃ m, n = m + 1 := ⟨n - 1, by omega⟩
    show (runSyncResult (runConsecFailures m).1 true).2 = _
    rw [runConsecFailures_fst]
    by_cases hgt : defaultRetryInterval * (m + 1) > defaultMaxRetryInterval
    · simp [runSyncResult, hgt, min_eq_right (le_of_lt hgt)]
    · simp [runSyncResult, hgt, min_eq_left (Nat.not_lt.mp hgt)]
  · intro failures
    cases failures <;> simp [runSyncResult]
  · decide

/-- Witness for C4: the 31st consecutive failure arms the clamped
backoff. -/
theorem run_backoff_linear_capped_witness :
    (runConsecFailures 31).2
      = some (min (defaultRetryInterval * 31) defaultMaxRetryInterval) :=
  run_backoff_linear_capped.1 31 (by decide)

/-! ## Check translation -/

/-- C5: for a declared script check, `createCheckReg` produces a TTL
check — no HTTP URL, no TCP endpoint — whose TTL is the check's interval
plus the 31s buffer. -/
theorem createCheckReg_script_ttl (serviceID checkID : String) (check : ServiceCheck)
    (host : String) (port : Int) (h : check.«Type» = serviceCheckScript) :
    ∃ reg, createCheckReg serviceID checkID check host port = .ok (check, reg)
      ∧ reg.HTTP = none ∧ reg.TCP = none
      ∧ reg.TTL = some (check.Interval + ttlCheckBuffer) := by
  refine ⟨{ ID := checkID, Name := check.Name, ServiceID := serviceID,
            Status := check.InitialStatus, Timeout := check.Timeout,
            Interval := check.Interval, HTTP := none, TCP := none,
            TTL := some (check.Interval + ttlCheckBuffer) }, ?_, rfl, rfl, rfl⟩
  simp [createCheckReg, h, serviceCheckHTTP, serviceCheckTCP, serviceCheckScript]

/-- Witness for C5: a 10s-interval script check registers a 41s TTL. -/
theorem createCheckReg_script_ttl_witness :
    ∃ reg, createCheckReg "_nomad-executor-a1-web-web" "c1"
        sampleScriptServiceCheck "10.0.0.1" 80 = .ok (sampleScriptServiceCheck, reg)
      ∧ reg.HTTP = none ∧ reg.TCP = none ∧ reg.TTL = some (41 * second) := by
  obtain ⟨reg, h1, h2, h3, h4⟩ :=
    createCheckReg_script_ttl "_nomad-executor-a1-web-web" "c1"
      sampleScriptServiceCheck "10.0.0.1" 80 rfl
  refine ⟨reg, h1, h2, h3, ?_⟩
  rw [h4]
  rfl

/-- C9: for an HTTP check whose Protocol is empty, `createCheckReg`
writes "http" into the caller's check record itself (in the source the
pointer assignment precedes the path parse): whenever the path parses,
the returned check is the input with only its Protocol field changed and
the registration's HTTP URL is set; when the external URL parser rejects
the path, `createCheckReg` propagates that error unchanged. -/
theorem createCheckReg_writes_protocol (serviceID checkID : String) (check : ServiceCheck)
    (host : String) (port : Int) (h : check.«Type» = serviceCheckHTTP)
    (hp : check.Protocol = "") :
    (∀ rel, urlParse check.Path = .ok rel →
      ∃ reg, createCheckReg serviceID checkID check host port
          = .ok ({ check with Protocol := "http" }, reg)
        ∧ reg.HTTP.isSome = true)
    ∧ (∀ e, urlParse check.Path = .error e →
        createCheckReg serviceID checkID check host port = .error e) := by
  constructor
  · intro rel hrel
    refine ⟨{ ID := checkID, Name := check.Name, ServiceID := serviceID,
              Status := check.InitialStatus, Timeout := check.Timeout,
              Interval := check.Interval,
              HTTP := some (resolveHTTPURL "http" host port rel),
              TCP := none, TTL := none }, ?_, rfl⟩
    simp [createCheckReg, h, hp, serviceCheckHTTP, hrel]
  · intro e he
    simp [createCheckReg, h, hp, serviceCheckHTTP, he]

/-- Witness for C9: the unset-protocol HTTP check with the parseable path
"/health" comes back with Protocol = "http" and everything else intact. -/
theorem createCheckReg_writes_protocol_witness :
    ∃ reg, createCheckReg "s1" "c9" sampleHTTPCheck "10.0.0.1" 80
        = .ok ({ sampleHTTPCheck with Protocol := "http" }, reg)
      ∧ reg.HTTP.isSome = true :=
  (createCheckReg_writes_protocol "s1" "c9" sampleHTTPCheck "10.0.0.1" 80 rfl rfl).1
    "/health" rfl

/-! ## Script worker -/

/-- C6: the worker translates exit code 0 to passing, 1 to warning,
anything else to critical; an executor error is critical with the error
text as output; and (whenever the executor call was not cancelled) that
translation is exactly what the worker heartbeats. -/
theorem script_exit_code_translation :
    (∀ output, heartbeatOf output 0 none = (output, healthPassing))
    ∧ (∀ output, heartbeatOf output 1 none = (output, healthWarning))
    ∧ (∀ output code, code ≠ 0 → code ≠ 1 →
        heartbeatOf output code none = (output, healthCritical))
    ∧ (∀ output code e, heartbeatOf output code (some e) = (e, healthCritical))
    ∧ (∀ (wake : Wake) (inp : IterInput) (lastOk : Bool),
        wake ≠ Wake.ctxDone → inp.execErr ≠ CtxErr.canceled →
        (scriptCheckIter wake inp lastOk).heartbeat
          = some (heartbeatOf inp.output inp.code inp.err)) := by
  refine ⟨fun output => rfl, fun output => rfl, ?_, fun output code e => rfl, ?_⟩
  · intro output code h0 h1
    simp [heartbeatOf, h0, h1]
  · intro wake inp lastOk hw hc
    cases wake with
    | ctxDone => exact absurd rfl hw
    | shutdown =>
      cases h : inp.execErr with
      | canceled => exact absurd h hc
      | ok => by_cases hd : inp.ctxDoneAfterHb <;> simp [scriptCheckIter, h, hd]
      | deadlineExceeded => by_cases hd : inp.ctxDoneAfterHb <;> simp [scriptCheckIter, h, hd]
    | timer =>
      cases h : inp.execErr with
      | canceled => exact absurd h hc
      | ok => by_cases hd : inp.ctxDoneAfterHb <;> simp [scriptCheckIter, h, hd]
      | deadlineExceeded => by_cases hd : inp.ctxDoneAfterHb <;> simp [scriptCheckIter, h, hd]

/-- Witness for C6: exit code 7 is critical; a passing probe's heartbeat
is (OK, passing). -/
theorem script_exit_code_translation_witness :
    heartbeatOf "o" 7 none = ("o", healthCritical)
    ∧ (scriptCheckIter Wake.timer samplePassInput true).heartbeat
        = some ("OK", healthPassing) := by
  refine ⟨script_exit_code_translation.2.2.1 "o" 7 (by decide) (by decide), ?_⟩
  have h := script_exit_code_translation.2.2.2.2 Wake.timer samplePassInput true
    (by decide) (by decide)
  rw [h]
  rfl

/-- C7: when the per-execution deadline is exceeded (and the executor,
which must honour cancellation, therefore reports an error), the
heartbeat status is critical, and the timeout warning is logged on every
such iteration — for either value of the lastOk flag, i.e. not
deduplicated. -/
theorem script_timeout_critical (wake : Wake) (inp : IterInput) (lastOk : Bool)
    (hw : wake ≠ Wake.ctxDone) (ht : inp.execErr = CtxErr.deadlineExceeded)
    (he : ∃ e, inp.err = some e) :
    (∃ e, inp.err = some e
      ∧ (scriptCheckIter wake inp lastOk).heartbeat = some (e, healthCritical))
    ∧ LogEvent.timeoutWarn ∈ (scriptCheckIter wake inp lastOk).logs := by
  obtain ⟨e, he⟩ := he
  cases wake with
  | ctxDone => exact absurd rfl hw
  | shutdown =>
    refine ⟨⟨e, he, ?_⟩, ?_⟩ <;>
      by_cases hd : inp.ctxDoneAfterHb <;>
        simp [scriptCheckIter, ht, hd, heartbeatOf, he]
  | timer =>
    refine ⟨⟨e, he, ?_⟩, ?_⟩ <;>
      by_cases hd : inp.ctxDoneAfterHb <;>
        simp [scriptCheckIter, ht, hd, heartbeatOf, he]

/-- Witness for C7: a timed-out probe heartbeats critical with the error
text, and warns even though lastOk was already false. -/
theorem script_timeout_critical_witness :
    (∃ e, sampleTimeoutInput.err = some e
      ∧ (scriptCheckIter Wake.timer sampleTimeoutInput false).heartbeat
          = some (e, healthCritical))
    ∧ LogEvent.timeoutWarn ∈ (scriptCheckIter Wake.timer sampleTimeoutInput false).logs :=
  script_timeout_critical Wake.timer sampleTimeoutInput false (by decide) rfl
    ⟨"context deadline exceeded", rfl⟩

/-- C8: a worker woken by the shutdown signal (and not cancelled)
performs exactly one more probe and one more heartbeat and then exits;
its done signal fires after that final heartbeat, whatever further
inputs were queued. -/
theorem script_shutdown_final_heartbeat (inp : IterInput)
    (rest : List (Wake × IterInput)) (lastOk : Bool)
    (hc1 : inp.execErr ≠ CtxErr.canceled) (hc2 : inp.ctxDoneAfterHb = false) :
    scriptCheckRun ((Wake.shutdown, inp) :: rest) lastOk
      = [WorkerEv.probe, WorkerEv.heartbeat, WorkerEv.done] := by
  cases h : inp.execErr with
  | canceled => exact absurd h hc1
  | ok => simp [scriptCheckRun, scriptCheckIter, iterEvents, h, hc2]
  | deadlineExceeded => simp [scriptCheckRun, scriptCheckIter, iterEvents, h, hc2]

/-- Witness for C8 at a concrete input. -/
theorem script_shutdown_final_heartbeat_witness :
    scriptCheckRun [(Wake.shutdown, samplePassInput)] true
      = [WorkerEv.probe, WorkerEv.heartbeat, WorkerEv.done] :=
  script_shutdown_final_heartbeat samplePassInput [] true (by decide) rfl

/-! ## Registration calls ignoring the commit result -/

/-- C10: once shutdown has been signalled, `commit` drops the batch and
returns false; `RegisterTask` nevertheless returns success (nil error)
with no observable state change, and `RemoveTask` likewise changes
nothing — callers cannot see that the batch was abandoned. -/
theorem registerTask_ignores_commit (st : ClientIOState) (allocID : String)
    (task : Task) (hs : st.shutdown = true) :
    (∀ ops, commit st ops = (false, st))
    ∧ (∀ ops, registerTaskOps allocID task true = .ok ops →
        RegisterTask st allocID task true = .ok st)
    ∧ RemoveTask st allocID task = st := by
  have hc : ∀ ops, commit st ops = (false, st) := by
    intro ops
    simp [commit, hs]
  refine ⟨hc, ?_, ?_⟩
  · intro ops hops
    simp [RegisterTask, hops, hc]
  · simp [RemoveTask, hc]

/-- Witness for C10: with shutdown signalled, registering and removing a
concrete task both succeed and leave the state untouched. -/
theorem registerTask_ignores_commit_witness :
    RegisterTask ⟨true, []⟩ "a1" sampleTask true = .ok ⟨true, []⟩
    ∧ RemoveTask ⟨true, []⟩ "a1" sampleTask = ⟨true, []⟩ := by
  have h := registerTask_ignores_commit ⟨true, []⟩ "a1" sampleTask rfl
  exact ⟨h.2.1 _ rfl, h.2.2⟩

/-! ## Reconcile ownership safety -/

theorem staleServiceDeregs_nomad (c : ServiceClientState) (r : RemoteState) :
    ∀ id ∈ staleServiceDeregs c r, isNomadService id = true := by
  intro id h
  have hp := (List.mem_filter.mp h).2
  rw [Bool.and_eq_true] at hp
  exact hp.2

theorem staleCheckDeregs_nomad (c : ServiceClientState) (r : RemoteState) :
    ∀ p ∈ staleCheckDeregs c r, isNomadService p.2 = true := by
  intro p hp
  obtain ⟨kv, hkv, hfst⟩ := List.mem_map.mp hp
  have hpred := (List.mem_filter.mp hkv).2
  rw [Bool.and_eq_true] at hpred
  rw [← hfst]
  exact hpred.2

theorem startScriptStep_preserves (cs : ServiceClientState)
    (kv : String × AgentCheckRegistration) :
    (startScriptStep cs kv).services = cs.services
    ∧ (startScriptStep cs kv).checks = cs.checks := by
  cases h : cs.scripts.find? kv.1 with
  | none => simp [startScriptStep, h]
  | some s =>
    by_cases hr : cs.runningScripts.contains kv.1 <;> simp [startScriptStep, h, hr]

theorem startScripts_preserves (regs : List (String × AgentCheckRegistration))
    (c : ServiceClientState) :
    (startScripts c regs).services = c.services
    ∧ (startScripts c regs).checks = c.checks := by
  induction regs generalizing c with
  | nil => exact ⟨rfl, rfl⟩
  | cons kv l ih =>
    have h1 := ih (startScriptStep c kv)
    have h2 := startScriptStep_preserves c kv
    exact ⟨h1.1.trans h2.1, h1.2.trans h2.2⟩

theorem syncPass_fst_services (c : ServiceClientState) (r : RemoteState) :
    (syncPass c r).1.services = c.services :=
  (startScripts_preserves _ _).1

theorem syncPass_fst_checks (c : ServiceClientState) (r : RemoteState) :
    (syncPass c r).1.checks = c.checks :=
  (startScripts_preserves _ _).2

theorem remoteServicesAfter_nonNomad (c : ServiceClientState) (r : RemoteState)
    (hS : ∀ kv ∈ c.services.entries, isNomadService kv.1 = true)
    (id : String) (hid : isNomadService id = false) :
    (remoteServicesAfter c r).find? id = r.services.find? id := by
  have hnotreg : id ∉ (svcRegsOf c r).map Prod.fst := by
    simp only [svcRegsOf, List.mem_map, List.mem_filter]
    rintro ⟨kv, ⟨hmem, -⟩, hfst⟩
    have hval := hS kv hmem
    rw [hfst] at hval
    rw [hval] at hid
    exact Bool.noConfusion hid
  have hnotstale : id ∉ staleServiceDeregs c r := by
    intro h
    have hval := staleServiceDeregs_nomad c r id h
    rw [hval] at hid
    exact Bool.noConfusion hid
  unfold remoteServicesAfter
  rw [SMap.find?_foldl_insert_notmem _ _ _ hnotreg, SMap.find?_foldl_erase,
    if_neg hnotstale]

theorem remoteServicesAfter_stale_none (c : ServiceClientState) (r : RemoteState)
    (id : String) (hid : isNomadService id = true)
    (habs : c.services.contains id = false) :
    (remoteServicesAfter c r).find? id = none := by
  have hnotreg : id ∉ (svcRegsOf c r).map Prod.fst := by
    simp only [svcRegsOf, List.mem_map, List.mem_filter]
    rintro ⟨kv, ⟨hmem, -⟩, hfst⟩
    rw [SMap.contains_eq_false_iff] at habs
    apply habs
    rw [← hfst]
    exact List.mem_map.mpr ⟨kv, hmem, rfl⟩
  unfold remoteServicesAfter
  rw [SMap.find?_foldl_insert_notmem _ _ _ hnotreg, SMap.find?_foldl_erase]
  by_cases hmem : id ∈ staleServiceDeregs c r
  · rw [if_pos hmem]
  · rw [if_neg hmem, SMap.find?_eq_none_iff]
    intro hkeys
    apply hmem
    simp only [staleServiceDeregs, List.mem_filter]
    exact ⟨hkeys, by simp [habs, hid]⟩

theorem remoteChecksAfter_nonNomad (c : ServiceClientState) (r : RemoteState)
    (hC : ∀ kv ∈ c.checks.entries, isNomadService kv.2.ServiceID = true)
    (hnd : r.checks.keys.Nodup)
    (id : String) (reg : AgentCheckRegistration)
    (hreg : isNomadService reg.ServiceID = false) :
    (remoteChecksAfter c r).find? id = some reg
      ↔ r.checks.find? id = some reg := by
  constructor
  · intro h
    unfold remoteChecksAfter at h
    rcases SMap.find?_foldl_insert_some _ _ _ _ h with hmem | hfind
    · have hentry : (id, reg) ∈ c.checks.entries := (List.mem_filter.mp hmem).1
      have hval := hC (id, reg) hentry
      rw [hval] at hreg
      exact Bool.noConfusion hreg
    · rw [SMap.find?_foldl_erase] at hfind
      by_cases hm : id ∈ (staleCheckDeregs c r).map Prod.fst
      · rw [if_pos hm] at hfind
        exact Option.noConfusion hfind
      · rwa [if_neg hm] at hfind
  · intro h
    have hcont : r.checks.contains id = true := by
      simp [SMap.contains, h]
    have hnotreg : id ∉ (chkRegsOf c r).map Prod.fst := by
      simp only [chkRegsOf, List.mem_map, List.mem_filter]
      rintro ⟨kv, ⟨-, hpred⟩, hfst⟩
      rw [hfst] at hpred
      rw [hcont] at hpred
      exact Bool.noConfusion hpred
    have hnotstale : id ∉ (staleCheckDeregs c r).map Prod.fst := by
      simp only [staleCheckDeregs, List.map_map, Function.comp, List.mem_map,
        List.mem_filter]
      rintro ⟨kv, ⟨hmem, hpred⟩, hfst⟩
      have hfind : r.checks.find? kv.1 = some kv.2 :=
        SMap.find?_of_mem_nodup _ _ _ hnd (by simpa using hmem)
      rw [hfst] at hfind
      have hv : kv.2 = reg := Option.some.inj (hfind.symm.trans h)
      rw [Bool.and_eq_true] at hpred
      have hnom := hpred.2
      rw [hv] at hnom
      rw [hnom] at hreg
      exact Bool.noConfusion hreg
    unfold remoteChecksAfter
    rw [SMap.find?_foldl_insert_notmem _ _ _ hnotreg, SMap.find?_foldl_erase,
      if_neg hnotstale]
    exact h

theorem remoteChecksAfter_nodup (c : ServiceClientState) (r : RemoteState)
    (hnd : r.checks.keys.Nodup) : (remoteChecksAfter c r).keys.Nodup :=
  SMap.nodup_keys_foldl_insert _ _ (SMap.nodup_keys_foldl_erase _ _ hnd)

theorem syncIter_succ (n : Nat) (c : ServiceClientState) (r : RemoteState) :
    syncIter (n + 1) c r = syncIter n (syncPass c r).1 (syncPass c r).2 := rfl

theorem syncIter_services_nonNomad (n : Nat) (c : ServiceClientState) (r : RemoteState)
    (hS : ∀ kv ∈ c.services.entries, isNomadService kv.1 = true)
    (id : String) (hid : isNomadService id = false) :
    (syncIter n c r).2.services.find? id = r.services.find? id := by
  induction n generalizing c r with
  | zero => rfl
  | succ n ih =>
    rw [syncIter_succ]
    have hS' : ∀ kv ∈ (syncPass c r).1.services.entries, isNomadService kv.1 = true := by
      rw [syncPass_fst_services]
      exact hS
    rw [ih _ _ hS']
    exact remoteServicesAfter_nonNomad c r hS id hid

theorem syncIter_checks_nonNomad (n : Nat) (c : ServiceClientState) (r : RemoteState)
    (hC : ∀ kv ∈ c.checks.entries, isNomadService kv.2.ServiceID = true)
    (hnd : r.checks.keys.Nodup)
    (id : String) (reg : AgentCheckRegistration)
    (hreg : isNomadService reg.ServiceID = false) :
    (syncIter n c r).2.checks.find? id = some reg
      ↔ r.checks.find? id = some reg := by
  induction n generalizing c r with
  | zero => exact Iff.rfl
  | succ n ih =>
    rw [syncIter_succ]
    have hC' : ∀ kv ∈ (syncPass c r).1.checks.entries,
        isNomadService kv.2.ServiceID = true := by
      rw [syncPass_fst_checks]
      exact hC
    have hnd' : (syncPass c r).2.checks.keys.Nodup := remoteChecksAfter_nodup c r hnd
    exact (ih _ _ hC' hnd').trans (remoteChecksAfter_nonNomad c r hC hnd id reg hreg)

theorem syncIter_services_stale_none (n : Nat) (c : ServiceClientState) (r : RemoteState)
    (id : String) (hid : isNomadService id = true)
    (habs : c.services.contains id = false) :
    (syncIter (n + 1) c r).2.services.find? id = none := by
  induction n generalizing c r with
  | zero => exact remoteServicesAfter_stale_none c r id hid habs
  | succ m ih =>
    rw [syncIter_succ]
    have habs' : (syncPass c r).1.services.contains id = false := by
      rw [syncPass_fst_services]
      exact habs
    exact ih _ _ habs'

/-- C1: ownership safety of reconcile. Provided the local desired state
carries only Nomad-prefixed IDs (which the identifier scheme guarantees):
the stale-service sweep only ever deregisters prefixed service IDs; the
stale-check sweep only ever deregisters checks whose owning service ID is
prefixed; after any number of reconcile passes every non-prefixed remote
service and every remote check owned by a non-prefixed service is exactly
as it was; and a prefixed remote service absent from the local desired
state is deregistered by the first pass (and stays gone). -/
theorem sync_ownership_safety (c : ServiceClientState) (r : RemoteState)
    (hS : ∀ kv ∈ c.services.entries, isNomadService kv.1 = true)
    (hC : ∀ kv ∈ c.checks.entries, isNomadService kv.2.ServiceID = true)
    (hnd : r.checks.keys.Nodup) :
    (∀ id ∈ staleServiceDeregs c r, isNomadService id = true)
    ∧ (∀ p ∈ staleCheckDeregs c r, isNomadService p.2 = true)
    ∧ (∀ n id, isNomadService id = false →
        (syncIter n c r).2.services.find? id = r.services.find? id)
    ∧ (∀ n id reg, isNomadService reg.ServiceID = false →
        ((syncIter n c r).2.checks.find? id = some reg
          ↔ r.checks.find? id = some reg))
    ∧ (∀ n id, isNomadService id = true → c.services.contains id = false →
        1 ≤ n → (syncIter n c r).2.services.find? id = none) := by
  refine ⟨staleServiceDeregs_nomad c r, staleCheckDeregs_nomad c r, ?_, ?_, ?_⟩
  · intro n id hid
    exact syncIter_services_nonNomad n c r hS id hid
  · intro n id reg hreg
    exact syncIter_checks_nonNomad n c r hC hnd id reg hreg
  · intro n id hid habs hn
    obtain ⟨m, rfl⟩ : ∃ m, n = m + 1 := ⟨n - 1, by omega⟩
    exact syncIter_services_stale_none m c r id hid habs

/-- Witness for C1: the spec's prefix-gating scenario. Remote holds
`svc-foo` and `_nomad-executor-a1-web-http`; the local store is empty.
After one reconcile, `svc-foo` is untouched and the stale Nomad service
is gone. -/
theorem sync_ownership_safety_witness :
    (syncIter 1 emptyClientState c1SampleRemote).2.services.find? "svc-foo"
        = c1SampleRemote.services.find? "svc-foo"
    ∧ (syncIter 1 emptyClientState c1SampleRemote).2.services.find?
        "_nomad-executor-a1-web-http" = none := by
  have h := sync_ownership_safety emptyClientState c1SampleRemote
    (by intro kv hkv; simp [emptyClientState] at hkv)
    (by intro kv hkv; simp [emptyClientState] at hkv)
    (by simp [c1SampleRemote, SMap.keys])
  exact ⟨h.2.2.1 1 "svc-foo" (by decide),
    h.2.2.2.2 1 "_nomad-executor-a1-web-http" (by decide) rfl (by decide)⟩

end NomadConsul
